import Mathlib

/-!
Verification of the sentencepiece model wrapper of fairseq2
(`src/fairseq2/native/data/text/sentencepiece/sp_model.h`).

The header fully implements the configuration builder `sp_model_options`
inline; those definitions below are direct translations of its code.  The
class `sp_model` is only declared in the header (its implementation file is
not part of the sources), so its behaviour is modelled from the design
specification; each such definition carries a doc comment starting with
`Modelled from the spec:`.
-/

set_option autoImplicit false

namespace Fairseq2

/-- Translation of `sp_model_options` from `sp_model.h`.  The C++ members
`control_tokens_`, `add_bos_`, `add_eos_` and `reverse_` are default-member
initialized to the empty vector and `false` (value initialization of `bool`). -/
structure sp_model_options where
  control_tokens_ : List String := []
  add_bos_ : Bool := false
  add_eos_ : Bool := false
  reverse_ : Bool := false
  deriving Repr, DecidableEq

/-- `sp_model_options::control_token(std::string value) &`: pushes `value` at
the back of `control_tokens_` and returns the updated object. -/
def sp_model_options.control_token (self : sp_model_options) (value : String) :
    sp_model_options :=
  { self with control_tokens_ := self.control_tokens_ ++ [value] }

/-- `sp_model_options::control_token(std::string value) &&`: the rvalue
overload; its body is identical to the lvalue overload (push back, return
the object, here handing off ownership). -/
def sp_model_options.control_token_rv (self : sp_model_options) (value : String) :
    sp_model_options :=
  { self with control_tokens_ := self.control_tokens_ ++ [value] }

/-- `sp_model_options::control_tokens()`: accessor returning the stored
control-token sequence (both the const and non-const overloads return a
reference to `control_tokens_`). -/
def sp_model_options.control_tokens (self : sp_model_options) : List String :=
  self.control_tokens_

/-- `sp_model_options::add_bos(bool value)`: stores `value` into `add_bos_`
unconditionally and returns the updated object for chaining.  The const
accessor overload `add_bos()` is the field projection `add_bos_`. -/
def sp_model_options.add_bos (self : sp_model_options) (value : Bool) :
    sp_model_options :=
  { self with add_bos_ := value }

/-- `sp_model_options::add_eos(bool value)`: stores `value` into `add_eos_`
unconditionally and returns the updated object for chaining. -/
def sp_model_options.add_eos (self : sp_model_options) (value : Bool) :
    sp_model_options :=
  { self with add_eos_ := value }

/-- `sp_model_options::reverse(bool value)`: stores `value` into `reverse_`
unconditionally and returns the updated object for chaining. -/
def sp_model_options.reverse (self : sp_model_options) (value : Bool) :
    sp_model_options :=
  { self with reverse_ := value }

/-- A single mutating call on an `sp_model_options` object, used to reason
about arbitrary call sequences on a configuration. -/
inductive sp_opt_call where
  | set_add_bos (value : Bool)
  | set_add_eos (value : Bool)
  | set_reverse (value : Bool)
  | add_control_token (value : String)
  deriving Repr, DecidableEq

/-- Performs one mutating call on the configuration. -/
def sp_model_options.apply_call (self : sp_model_options) :
    sp_opt_call → sp_model_options
  | .set_add_bos v => self.add_bos v
  | .set_add_eos v => self.add_eos v
  | .set_reverse v => self.reverse v
  | .add_control_token s => self.control_token s

/-- Performs a sequence of mutating calls, first element first. -/
def sp_model_options.apply_calls (self : sp_model_options)
    (calls : List sp_opt_call) : sp_model_options :=
  calls.foldl sp_model_options.apply_call self

/-- The value the `add_bos_` flag holds after a call sequence: the most
recently written value, or the initial value `d` when no call wrote it. -/
def last_add_bos (calls : List sp_opt_call) (d : Bool) : Bool :=
  calls.foldl (fun acc c =>
    match c with
    | .set_add_bos v => v
    | _ => acc) d

/-- The value the `add_eos_` flag holds after a call sequence. -/
def last_add_eos (calls : List sp_opt_call) (d : Bool) : Bool :=
  calls.foldl (fun acc c =>
    match c with
    | .set_add_eos v => v
    | _ => acc) d

/-- The value the `reverse_` flag holds after a call sequence. -/
def last_reverse (calls : List sp_opt_call) (d : Bool) : Bool :=
  calls.foldl (fun acc c =>
    match c with
    | .set_reverse v => v
    | _ => acc) d

/-- Modelled from the spec: the serialized vocabulary a resource path may
denote.  The implementation of `sp_model` and of the engine class
`detail::sp_processor` is not under the sources, so the loaded data is
modelled from the design document: a base vocabulary (the string form of
each addressable id, in id order) and the four reserved special ids, each a
signed integer where a negative value is the "absent" sentinel. -/
structure sp_resource where
  base_vocab : List String
  unk_id : Int
  bos_id : Int
  eos_id : Int
  pad_id : Int
  deriving Repr, DecidableEq

/-- Modelled from the spec: the opaque engine instance
(`detail::sp_processor`) bound by a model handle, holding the vocabulary
with any control tokens folded in at load time, plus the reserved ids. -/
structure sp_processor where
  vocab : List String
  unk_id : Int
  bos_id : Int
  eos_id : Int
  pad_id : Int
  deriving Repr, DecidableEq

/-- The two error kinds of the design document. -/
inductive sp_error where
  | ModelLoadError (pathname : String)
  | IndexOutOfRangeError (what : String)
  deriving Repr, DecidableEq

/-- Modelled from the spec: the model handle, owning exactly one engine
instance (`std::unique_ptr<detail::sp_processor> processor_`). -/
structure sp_model where
  processor_ : sp_processor
  deriving Repr, DecidableEq

/-- Modelled from the spec: the constructor
`sp_model(std::string_view pathname, sp_model_options opts = {})`.  The file
system is abstracted as a partial map from pathnames to parseable resources
(`none` covers both a missing resource and one that cannot be parsed as a
valid vocabulary).  Construction fails with `ModelLoadError` when the
resource cannot be loaded, or when the configuration declares conflicting
control tokens (a collision with an existing vocabulary entry or a
duplicate among the control tokens); otherwise the control tokens are
folded into the vocabulary, order preserved, and the handle is produced. -/
def sp_model.construct (fs : String → Option sp_resource) (pathname : String)
    (opts : sp_model_options := {}) : Except sp_error sp_model :=
  match fs pathname with
  | none => .error (.ModelLoadError pathname)
  | some r =>
      if (∀ t ∈ opts.control_tokens_, t ∉ r.base_vocab) ∧ opts.control_tokens_.Nodup then
        .ok ⟨⟨r.base_vocab ++ opts.control_tokens_, r.unk_id, r.bos_id, r.eos_id, r.pad_id⟩⟩
      else
        .error (.ModelLoadError pathname)

/-- First index at which `token` occurs in `vocab`, if any. -/
def find_index (vocab : List String) (token : String) : Option Nat :=
  match vocab with
  | [] => none
  | t :: rest =>
      if t = token then some 0 else (find_index rest token).map (· + 1)

/-- Modelled from the spec: `sp_model::vocabulary_size()`, the count of
addressable token ids, control tokens included. -/
def sp_model.vocabulary_size (self : sp_model) : Nat :=
  self.processor_.vocab.length

/-- Modelled from the spec: `sp_model::unk_idx()`, the reserved
unknown-token id, negative when absent. -/
def sp_model.unk_idx (self : sp_model) : Int :=
  self.processor_.unk_id

/-- Modelled from the spec: `sp_model::bos_idx()`. -/
def sp_model.bos_idx (self : sp_model) : Int :=
  self.processor_.bos_id

/-- Modelled from the spec: `sp_model::eos_idx()`. -/
def sp_model.eos_idx (self : sp_model) : Int :=
  self.processor_.eos_id

/-- Modelled from the spec: `sp_model::pad_idx()`. -/
def sp_model.pad_idx (self : sp_model) : Int :=
  self.processor_.pad_id

/-- Modelled from the spec: `sp_model::token_to_index(token)` returns the
id of the exact match, or the reserved unknown-token id when no exact match
exists; it is total and never fails. -/
def sp_model.token_to_index (self : sp_model) (token : String) : Int :=
  match find_index self.processor_.vocab token with
  | some i => (i : Int)
  | none => self.unk_idx

/-- Modelled from the spec: `sp_model::index_to_token(idx)` returns the
string form of `idx`, and fails with `IndexOutOfRangeError` when `idx` is
not in `[0, vocabulary_size)`. -/
def sp_model.index_to_token (self : sp_model) (idx : Int) : Except sp_error String :=
  if 0 ≤ idx ∧ idx < (self.vocabulary_size : Int) then
    .ok (self.processor_.vocab.getD idx.toNat "")
  else
    .error (.IndexOutOfRangeError (toString idx))

/-- A reserved id is coherent for a vocabulary of `n` entries when it is
either addressable or the negative "absent" sentinel. -/
def reserved_ok (i : Int) (n : Nat) : Prop :=
  (0 ≤ i ∧ i < (n : Int)) ∨ i < 0

/-- A concrete three-entry resource used to instantiate the theorems below
on closed inputs. -/
def demo_resource : sp_resource :=
  ⟨["a", "b", "c"], 0, 1, 2, -1⟩

/-- A concrete file system on which every pathname resolves to
`demo_resource`. -/
def demo_fs : String → Option sp_resource :=
  fun _ => some demo_resource

/-- A concrete file system on which no pathname resolves. -/
def empty_fs : String → Option sp_resource :=
  fun _ => none

/-- The model handle obtained from `demo_fs` with default options. -/
def demo_model : sp_model :=
  ⟨⟨["a", "b", "c"], 0, 1, 2, -1⟩⟩

/-! Helper lemmas. -/

theorem apply_calls_nil (opts : sp_model_options) : opts.apply_calls [] = opts :=
  rfl

theorem apply_calls_cons (opts : sp_model_options) (c : sp_opt_call)
    (cs : List sp_opt_call) :
    opts.apply_calls (c :: cs) = (opts.apply_call c).apply_calls cs :=
  rfl

theorem apply_calls_add_bos_eq (calls : List sp_opt_call) :
    ∀ opts : sp_model_options,
      (opts.apply_calls calls).add_bos_ = last_add_bos calls opts.add_bos_ := by
  induction calls with
  | nil => intro opts; rfl
  | cons c cs ih => intro opts; cases c <;> exact ih _

theorem apply_calls_add_eos_eq (calls : List sp_opt_call) :
    ∀ opts : sp_model_options,
      (opts.apply_calls calls).add_eos_ = last_add_eos calls opts.add_eos_ := by
  induction calls with
  | nil => intro opts; rfl
  | cons c cs ih => intro opts; cases c <;> exact ih _

theorem apply_calls_reverse_eq (calls : List sp_opt_call) :
    ∀ opts : sp_model_options,
      (opts.apply_calls calls).reverse_ = last_reverse calls opts.reverse_ := by
  induction calls with
  | nil => intro opts; rfl
  | cons c cs ih => intro opts; cases c <;> exact ih _

theorem find_index_eq_none_iff (vocab : List String) (token : String) :
    find_index vocab token = none ↔ token ∉ vocab := by
  induction vocab with
  | nil => simp [find_index]
  | cons t rest ih =>
    by_cases h : t = token
    · subst h; simp [find_index]
    · simp [find_index, h, Option.map_eq_none', ih, Ne.symm h]

theorem find_index_get (vocab : List String) (hn : vocab.Nodup) (i : Nat)
    (h : i < vocab.length) :
    find_index vocab (vocab.get ⟨i, h⟩) = some i := by
  induction vocab generalizing i with
  | nil => simp at h
  | cons t rest ih =>
    rcases List.nodup_cons.mp hn with ⟨hnot, hrest⟩
    cases i with
    | zero => simp [find_index]
    | succ j =>
      have hj : j < rest.length := by simpa using h
      have hmem : rest.get ⟨j, hj⟩ ∈ rest := List.get_mem rest j hj
      have hne : ¬ t = rest.get ⟨j, hj⟩ := fun he => hnot (he ▸ hmem)
      have hih := ih hrest j hj
      simp only [List.get_eq_getElem] at hne hih
      simp [find_index, hne, hih]

theorem construct_eq_ok (fs : String → Option sp_resource) (pathname : String)
    (opts : sp_model_options) (r : sp_resource)
    (hfs : fs pathname = some r)
    (hnc : (∀ t ∈ opts.control_tokens_, t ∉ r.base_vocab) ∧
           opts.control_tokens_.Nodup) :
    sp_model.construct fs pathname opts =
      .ok ⟨⟨r.base_vocab ++ opts.control_tokens_,
            r.unk_id, r.bos_id, r.eos_id, r.pad_id⟩⟩ := by
  unfold sp_model.construct
  rw [hfs]
  exact if_pos hnc

theorem construct_eq_error_none (fs : String → Option sp_resource)
    (pathname : String) (opts : sp_model_options)
    (hfs : fs pathname = none) :
    sp_model.construct fs pathname opts = .error (.ModelLoadError pathname) := by
  unfold sp_model.construct
  rw [hfs]

theorem construct_eq_error_conflict (fs : String → Option sp_resource)
    (pathname : String) (opts : sp_model_options) (r : sp_resource)
    (hfs : fs pathname = some r)
    (hnc : ¬ ((∀ t ∈ opts.control_tokens_, t ∉ r.base_vocab) ∧
              opts.control_tokens_.Nodup)) :
    sp_model.construct fs pathname opts = .error (.ModelLoadError pathname) := by
  unfold sp_model.construct
  rw [hfs]
  exact if_neg hnc

theorem reserved_ok_mono {i : Int} {n n' : Nat} (h : n ≤ n')
    (hi : reserved_ok i n) : reserved_ok i n' := by
  rcases hi with ⟨h0, hlt⟩ | hneg
  · exact Or.inl ⟨h0, by omega⟩
  · exact Or.inr hneg

/-! Claim theorems. -/

/-- C1: for every model handle whose vocabulary assigns no string form to
two distinct ids, every id in `[0, vocabulary_size)` round-trips:
`token_to_index (index_to_token id) = id`. -/
theorem token_index_round_trip (m : sp_model) (id : Int) (t : String)
    (hnodup : m.processor_.vocab.Nodup)
    (hok : m.index_to_token id = .ok t) :
    m.token_to_index t = id := by
  unfold sp_model.index_to_token at hok
  split_ifs at hok with hb
  · have hlt : id.toNat < m.processor_.vocab.length := by
      have := hb.2
      simp only [sp_model.vocabulary_size] at this
      omega
    have ht : t = m.processor_.vocab.get ⟨id.toNat, hlt⟩ := by
      have := Except.ok.inj hok
      rw [← this, List.getD_eq_getElem _ _ hlt]
      rfl
    unfold sp_model.token_to_index
    rw [ht, find_index_get _ hnodup _ hlt]
    show ((id.toNat : Nat) : Int) = id
    have h0 := hb.1
    omega

/-- C1 witness: on the concrete three-token model, id 1 round-trips. -/
theorem token_index_round_trip_witness : demo_model.token_to_index "b" = 1 :=
  token_index_round_trip demo_model 1 "b" (by decide) (by rfl)

/-- C2: `index_to_token id` fails with `IndexOutOfRangeError` exactly when
`id < 0` or `id ≥ vocabulary_size`, and for `id` inside
`[0, vocabulary_size)` it returns the string form of `id` without
failing. -/
theorem index_to_token_bounds (m : sp_model) (id : Int) :
    (m.index_to_token id = .error (.IndexOutOfRangeError (toString id)) ↔
      id < 0 ∨ (m.vocabulary_size : Int) ≤ id) ∧
    (0 ≤ id ∧ id < (m.vocabulary_size : Int) →
      m.index_to_token id = .ok (m.processor_.vocab.getD id.toNat "")) := by
  unfold sp_model.index_to_token
  constructor
  · split_ifs with hb
    · constructor
      · intro h; simp at h
      · intro h; exact absurd hb (by omega)
    · constructor
      · intro _; omega
      · intro _; rfl
  · intro hb
    rw [if_pos hb]

/-- C2 witness: on the concrete three-token model, id 5 is rejected with
`IndexOutOfRangeError` and id 1 resolves to its string form. -/
theorem index_to_token_bounds_witness :
    demo_model.index_to_token 5
      = .error (.IndexOutOfRangeError (toString (5 : Int))) ∧
    demo_model.index_to_token 1
      = .ok (demo_model.processor_.vocab.getD (1 : Int).toNat "") :=
  ⟨(index_to_token_bounds demo_model 5).1.mpr (by decide),
   (index_to_token_bounds demo_model 1).2 (by decide)⟩

/-- C3: `token_to_index` is total (it returns an id for every input
string), and for a string not present in the vocabulary it returns the
reserved unknown-token id rather than raising an error. -/
theorem token_to_index_unknown (m : sp_model) (token : String)
    (h : token ∉ m.processor_.vocab) :
    m.token_to_index token = m.unk_idx := by
  unfold sp_model.token_to_index
  rw [(find_index_eq_none_iff _ _).mpr h]

/-- C3 witness: a string outside the concrete vocabulary maps to the
unknown-token id. -/
theorem token_to_index_unknown_witness :
    demo_model.token_to_index "zz" = demo_model.unk_idx :=
  token_to_index_unknown demo_model "zz" (by decide)

/-- C6: `control_token(value)` appends `value` at the end of the
control-token sequence: the sequence becomes the old one followed by
`value`, so its length grows by exactly one, every previously added entry
keeps its position, and duplicates are allowed and preserved; the rvalue
(hand-off-ownership) overload produces the same configuration as the
lvalue (in-place) overload. -/
theorem control_token_appends (opts : sp_model_options) (value : String) :
    (opts.control_token value).control_tokens_ = opts.control_tokens_ ++ [value] ∧
    (opts.control_token value).control_tokens_.length
      = opts.control_tokens_.length + 1 ∧
    (∀ i : Nat, i < opts.control_tokens_.length →
      (opts.control_token value).control_tokens_.get? i
        = opts.control_tokens_.get? i) ∧
    opts.control_token_rv value = opts.control_token value := by
  refine ⟨rfl, by simp [sp_model_options.control_token], ?_, rfl⟩
  intro i hi
  simp only [sp_model_options.control_token, List.get?_eq_getElem?]
  exact List.getElem?_append_left hi

/-- C6 witness: the contract instantiated on a concrete configuration that
already holds the same token, showing the duplicate is preserved. -/
theorem control_token_appends_witness :
    (sp_model_options.control_token ⟨["x"], false, false, false⟩ "x").control_tokens_
      = ["x", "x"] := by
  have h := control_token_appends ⟨["x"], false, false, false⟩ "x"
  simpa using h.1

/-- C7: the setters `add_bos`, `add_eos` and `reverse` store the flag
unconditionally and return the updated configuration (so after any sequence
of calls the corresponding field holds the most recently written value, or
the original one when never written), and the accessors return the current
flags and control-token sequence without mutating the configuration. -/
theorem setters_last_write_wins (opts : sp_model_options) (v : Bool)
    (calls : List sp_opt_call) :
    (opts.add_bos v).add_bos_ = v ∧
    (opts.add_eos v).add_eos_ = v ∧
    (opts.reverse v).reverse_ = v ∧
    (opts.apply_calls calls).add_bos_ = last_add_bos calls opts.add_bos_ ∧
    (opts.apply_calls calls).add_eos_ = last_add_eos calls opts.add_eos_ ∧
    (opts.apply_calls calls).reverse_ = last_reverse calls opts.reverse_ ∧
    opts.control_tokens = opts.control_tokens_ :=
  ⟨rfl, rfl, rfl, apply_calls_add_bos_eq calls opts,
    apply_calls_add_eos_eq calls opts, apply_calls_reverse_eq calls opts, rfl⟩

/-- C10: a default-constructed configuration has an empty control-token
sequence and all three flags `false`, and constructing a model handle from
a pathname alone uses exactly that default configuration. -/
theorem default_options_spec (fs : String → Option sp_resource)
    (pathname : String) :
    ({} : sp_model_options).control_tokens_ = [] ∧
    ({} : sp_model_options).add_bos_ = false ∧
    ({} : sp_model_options).add_eos_ = false ∧
    ({} : sp_model_options).reverse_ = false ∧
    sp_model.construct fs pathname = sp_model.construct fs pathname {} :=
  ⟨rfl, rfl, rfl, rfl, rfl⟩

/-- C4: for a loadable resource, constructing with a configuration holding
`k` control tokens (no collisions with existing entries, no duplicates)
succeeds and yields a vocabulary size exactly `k` larger than constructing
with the otherwise-identical configuration holding none. -/
theorem construct_adds_control_tokens
    (fs : String → Option sp_resource) (pathname : String)
    (opts : sp_model_options) (r : sp_resource)
    (hfs : fs pathname = some r)
    (hnc : (∀ t ∈ opts.control_tokens_, t ∉ r.base_vocab) ∧
           opts.control_tokens_.Nodup) :
    ∃ m0 m : sp_model,
      sp_model.construct fs pathname { opts with control_tokens_ := [] }
        = .ok m0 ∧
      sp_model.construct fs pathname opts = .ok m ∧
      m.vocabulary_size = m0.vocabulary_size + opts.control_tokens_.length := by
  refine ⟨⟨⟨r.base_vocab ++ [], r.unk_id, r.bos_id, r.eos_id, r.pad_id⟩⟩,
          ⟨⟨r.base_vocab ++ opts.control_tokens_,
            r.unk_id, r.bos_id, r.eos_id, r.pad_id⟩⟩, ?_, ?_, ?_⟩
  · exact construct_eq_ok fs pathname _ r hfs (by simp)
  · exact construct_eq_ok fs pathname opts r hfs hnc
  · simp [sp_model.vocabulary_size]

/-- C4 witness: adding two fresh control tokens to the concrete resource
grows the vocabulary size from 3 to 5. -/
theorem construct_adds_control_tokens_witness :
    ∃ m0 m : sp_model,
      sp_model.construct demo_fs "demo.model"
        { (⟨["s", "t"], false, false, false⟩ : sp_model_options) with
            control_tokens_ := [] } = .ok m0 ∧
      sp_model.construct demo_fs "demo.model"
        (⟨["s", "t"], false, false, false⟩ : sp_model_options) = .ok m ∧
      m.vocabulary_size = m0.vocabulary_size + 2 :=
  construct_adds_control_tokens demo_fs "demo.model"
    ⟨["s", "t"], false, false, false⟩ demo_resource rfl (by decide)

/-- C5: when the resource cannot be loaded, construction fails with
`ModelLoadError` naming the pathname; when the resource loads but the
configuration declares conflicting control tokens, construction fails the
same way; in the unloadable case no handle is ever produced. -/
theorem construct_failure_no_handle (fs : String → Option sp_resource)
    (pathname : String) (opts : sp_model_options) :
    (fs pathname = none →
      sp_model.construct fs pathname opts = .error (.ModelLoadError pathname)) ∧
    (∀ r : sp_resource, fs pathname = some r →
      ¬ ((∀ t ∈ opts.control_tokens_, t ∉ r.base_vocab) ∧
         opts.control_tokens_.Nodup) →
      sp_model.construct fs pathname opts = .error (.ModelLoadError pathname)) ∧
    (fs pathname = none →
      ∀ m : sp_model, ¬ sp_model.construct fs pathname opts = .ok m) := by
  refine ⟨fun h => construct_eq_error_none fs pathname opts h,
          fun r hfs hnc => construct_eq_error_conflict fs pathname opts r hfs hnc,
          fun h m hok => ?_⟩
  rw [construct_eq_error_none fs pathname opts h] at hok
  exact Except.noConfusion hok

/-- C5 witness: on the empty file system construction fails with
`ModelLoadError`, and a control token colliding with an existing entry of
the concrete resource also fails construction. -/
theorem construct_failure_no_handle_witness :
    sp_model.construct empty_fs "missing.model" {}
      = .error (.ModelLoadError "missing.model") ∧
    sp_model.construct demo_fs "demo.model"
        (⟨["a"], false, false, false⟩ : sp_model_options)
      = .error (.ModelLoadError "demo.model") :=
  ⟨(construct_failure_no_handle empty_fs "missing.model" {}).1 rfl,
   (construct_failure_no_handle demo_fs "demo.model" _).2.1
      demo_resource rfl (by decide)⟩

/-- C8: on a handle constructed from a loadable resource whose reserved
ids are each addressable in the base vocabulary or negative, the four
accessors return exactly the reserved id stored for their role (hence
repeated queries agree for the whole lifetime of the handle), and each
returned value is an addressable id of the handle or the negative absent
sentinel. -/
theorem special_index_accessors
    (fs : String → Option sp_resource) (pathname : String)
    (opts : sp_model_options) (r : sp_resource) (m : sp_model)
    (hfs : fs pathname = some r)
    (hok : sp_model.construct fs pathname opts = .ok m)
    (hwf : reserved_ok r.unk_id r.base_vocab.length ∧
           reserved_ok r.bos_id r.base_vocab.length ∧
           reserved_ok r.eos_id r.base_vocab.length ∧
           reserved_ok r.pad_id r.base_vocab.length) :
    (m.unk_idx = r.unk_id ∧ m.bos_idx = r.bos_id ∧
     m.eos_idx = r.eos_id ∧ m.pad_idx = r.pad_id) ∧
    (reserved_ok m.unk_idx m.vocabulary_size ∧
     reserved_ok m.bos_idx m.vocabulary_size ∧
     reserved_ok m.eos_idx m.vocabulary_size ∧
     reserved_ok m.pad_idx m.vocabulary_size) := by
  by_cases hnc : (∀ t ∈ opts.control_tokens_, t ∉ r.base_vocab) ∧
      opts.control_tokens_.Nodup
  · rw [construct_eq_ok fs pathname opts r hfs hnc] at hok
    have hm := Except.ok.inj hok
    subst hm
    have hsz : r.base_vocab.length ≤
        (⟨⟨r.base_vocab ++ opts.control_tokens_,
           r.unk_id, r.bos_id, r.eos_id, r.pad_id⟩⟩ : sp_model).vocabulary_size := by
      simp [sp_model.vocabulary_size]
    exact ⟨⟨rfl, rfl, rfl, rfl⟩,
      reserved_ok_mono hsz hwf.1, reserved_ok_mono hsz hwf.2.1,
      reserved_ok_mono hsz hwf.2.2.1, reserved_ok_mono hsz hwf.2.2.2⟩
  · rw [construct_eq_error_conflict fs pathname opts r hfs hnc] at hok
    exact Except.noConfusion hok

/-- C8 witness: on the handle built from the concrete resource, the
unknown id is 0 and the pad role is absent (negative sentinel). -/
theorem special_index_accessors_witness :
    demo_model.unk_idx = 0 ∧ demo_model.pad_idx = -1 := by
  have h := special_index_accessors demo_fs "demo.model" {} demo_resource
    demo_model rfl (by rfl)
    ⟨Or.inl (by decide), Or.inl (by decide), Or.inl (by decide),
     Or.inr (by decide)⟩
  exact ⟨h.1.1.trans (by decide), h.1.2.2.2.trans (by decide)⟩

end Fairseq2
